import Mathlib

/-!
Verification of the tyre-degradation analysis core
(`src/gui/tyre_degradation_window.py`).

The development shallowly embeds the data model and the computational core
of the window: the per-driver telemetry store with its retention cap
(`on_telemetry_data`), stint segmentation and the health-curve formula
(`compute_degradation_series`), and the view assembly (`update_plot`).
Machine floats are modelled by `ℚ` (all arithmetic performed by the code on
the health path is exact on the inputs considered), Python lists by `List`,
and the per-driver dict by an association list in insertion order.
-/

namespace TyreWindow

/-- One stored telemetry entry: the `tyre_data` dict appended per driver in
`on_telemetry_data` (`frame`, `tyre` compound code, `tyre_life`, `lap`). -/
structure Entry where
  frame : Nat
  tyre : Int
  tyre_life : Int
  lap : Int
deriving DecidableEq, Repr

/-- `sorted(entries, key=lambda x: x['frame'])`: Python's `sorted` is a
stable ascending sort, which insertion sort on `frame ≤ frame` implements
exactly (stability plus sortedness determine the output uniquely). -/
def sortByFrame (entries : List Entry) : List Entry :=
  List.insertionSort (fun a b => a.frame ≤ b.frame) entries

instance : IsTotal Entry (fun a b => a.frame ≤ b.frame) :=
  ⟨fun a b => Nat.le_total a.frame b.frame⟩

instance : IsTrans Entry (fun a b => a.frame ≤ b.frame) :=
  ⟨fun _ _ _ h h2 => Nat.le_trans h h2⟩

/-- The `current_stint` dict built inside `compute_degradation_series`. -/
structure Stint where
  compound : Int
  start_life : Int
  start_lap : Int
  lives : List Int
  laps : List Int
deriving DecidableEq, Repr

/-- The fresh stint created from an entry when `is_new_stint` holds. -/
def mkStint (e : Entry) : Stint :=
  { compound := e.tyre, start_life := e.tyre_life, start_lap := e.lap,
    lives := [e.tyre_life], laps := [e.lap] }

/-- The `else` branch of the segmentation loop: the current stint absorbs
the entry (`lives.append(life)`, `laps.append(lap)`). -/
def addSample (s : Stint) (e : Entry) : Stint :=
  { s with lives := s.lives ++ [e.tyre_life], laps := s.laps ++ [e.lap] }

/-- The stint-building loop of `compute_degradation_series`, from the second
entry on: `cur` is the current stint, `previous_life` the previous entry's
`tyre_life`.  A new stint starts when the compound changes or the tyre life
decreases (`is_new_stint`); `current_stint is None` only happens at the very
first entry, which `segment` handles. -/
def segmentAux (cur : Stint) (previous_life : Int) : List Entry → List Stint
  | [] => [cur]
  | e :: es =>
    if cur.compound ≠ e.tyre ∨ e.tyre_life < previous_life then
      cur :: segmentAux (mkStint e) e.tyre_life es
    else
      segmentAux (addSample cur e) e.tyre_life es

/-- The full stint-building loop (`stints` list of
`compute_degradation_series`), on a history in processing order. -/
def segment : List Entry → List Stint
  | [] => []
  | e :: es => segmentAux (mkStint e) e.tyre_life es

/-- `self.expected_tyre_life`: compound code → expected life in laps. -/
def expected_tyre_life_table : List (Int × Int) :=
  [(0, 20), (1, 25), (2, 30), (3, 18), (4, 22)]

/-- `self.expected_tyre_life.get(compound, 25)`. -/
def expected_tyre_life (compound : Int) : Int :=
  (expected_tyre_life_table.lookup compound).getD 25

/-- The health computation of the inner loop of
`compute_degradation_series` for one sample: `laps_in_stint`,
`effective_life_progress` and the `health_pct` branch. -/
def health_pct (expected_life start_life start_lap lap : Int) : ℚ :=
  let laps_in_stint : Int := max 0 (lap - start_lap)
  let effective_life_progress : Int := max 0 ((start_life - 1) + laps_in_stint)
  if 1 < expected_life then
    100 - ((effective_life_progress : ℚ) / ((expected_life : ℚ) - 1)) * 100
  else
    (100 : ℚ)

/-- The per-stint plotting loop: `for life, lap in zip(stint['lives'],
stint['laps'])`, appending `lap` to `plot_x` and `health_pct` to `plot_y`. -/
def stintXY (s : Stint) : List Int × List ℚ :=
  let el := expected_tyre_life s.compound
  ((s.lives.zip s.laps).map (fun p => p.2),
   (s.lives.zip s.laps).map (fun p => health_pct el s.start_life s.start_lap p.2))

/-- `compute_degradation_series(entries)`: sort by frame, build stints,
emit one `(lap, health)` point per sample. -/
def compute_degradation_series (entries : List Entry) : List Int × List ℚ :=
  if entries.isEmpty then ([], [])
  else
    let stints := segment (sortByFrame entries)
    ((stints.map (fun s => (stintXY s).1)).flatten,
     (stints.map (fun s => (stintXY s).2)).flatten)

/-- The retention cap on each driver's history (`1000` in
`on_telemetry_data`). -/
def retention_cap : Nat := 1000

/-- One append to a driver's history in `on_telemetry_data`:
`self.driver_data[code].append(tyre_data)` followed by the cap
`self.driver_data[code] = self.driver_data[code][-1000:]` when the length
exceeds the cap (`[-1000:]` keeps the `1000` most recent entries). -/
def record (hist : List Entry) (e : Entry) : List Entry :=
  let h := hist ++ [e]
  if retention_cap < h.length then h.drop (h.length - retention_cap) else h

/-- The outcome of one `update_plot` pass, as handed to the renderer:
the waiting placeholder, the single-driver view (driver, `plot_x`,
`plot_y`, `max_lap`), or the all-drivers view (plotted curves in sorted
driver order, the `plotted` flag, `max_lap`). -/
inductive ViewModel where
  | placeholder : ViewModel
  | singleDriver (driver : String) (plot_x : List Int) (plot_y : List ℚ)
      (max_lap : Int) : ViewModel
  | allDrivers (curves : List (String × List Int × List ℚ)) (plotted : Bool)
      (max_lap : Int) : ViewModel
deriving DecidableEq

/-- `ViewModel` case test: is this the all-drivers view? -/
def ViewModel.isAllDriversView : ViewModel → Bool
  | .allDrivers _ _ _ => true
  | _ => false

/-- Python's `max` over a possibly empty sequence of `Int`. -/
def intMax : List Int → Option Int
  | [] => none
  | x :: xs => some (xs.foldl max x)

/-- `max((max(e['lap'] for e in entries) for entries in
self.driver_data.values() if entries), default=0)`. -/
def max_lap (driver_data : List (String × List Entry)) : Int :=
  match driver_data.filterMap (fun p => intMax (p.2.map Entry.lap)) with
  | [] => 0
  | m :: ms => ms.foldl max m

/-- `self.driver_data.get(driver, [])`. -/
def getEntries (driver_data : List (String × List Entry)) (d : String) : List Entry :=
  (driver_data.lookup d).getD []

/-- `update_plot`: placeholder on an empty store; the single-driver branch
when `self.current_driver` is truthy and not `"All Drivers"`; otherwise the
all-drivers branch over driver codes sorted ascending, keeping only curves
with nonempty point lists (`if px and py`), with `plotted` true when at
least one curve was kept. -/
def update_plot (driver_data : List (String × List Entry))
    (current_driver : String) : ViewModel :=
  if driver_data.isEmpty then ViewModel.placeholder
  else if current_driver ≠ "" ∧ current_driver ≠ "All Drivers" then
    let xy := compute_degradation_series (getEntries driver_data current_driver)
    ViewModel.singleDriver current_driver xy.1 xy.2 (max_lap driver_data)
  else
    let drivers_sorted :=
      List.insertionSort (fun a b : String => a ≤ b) (driver_data.map Prod.fst)
    let curves := drivers_sorted.filterMap (fun d =>
      let xy := compute_degradation_series (getEntries driver_data d)
      if xy.1 ≠ [] ∧ xy.2 ≠ [] then some (d, xy) else none)
    ViewModel.allDrivers curves (!curves.isEmpty) (max_lap driver_data)

/-- The combo/selection maintenance of `on_telemetry_data` (lines 133-146):
`desired = ["All Drivers"] + driver_codes`; when the selector contents
differ from `desired` they are rebuilt, and if the current selection is not
in `desired` it falls back to `"All Drivers"`. Returns the new selector
contents and the new selection. -/
def fallbackSelection (current_items : List String) (current_driver : String)
    (driver_codes : List String) : List String × String :=
  let desired := "All Drivers" :: driver_codes
  if current_items = desired then (current_items, current_driver)
  else if current_driver ∈ desired then (desired, current_driver)
  else (desired, "All Drivers")

/-- The mutable state `update_plot` can see: the current selection and the
per-driver histories. -/
structure AppState where
  current_driver : String
  driver_data : List (String × List Entry)
deriving DecidableEq

/-- One render pass: `update_plot` reads the state and produces a
`ViewModel`; it writes only to the figure/canvas, never to
`self.driver_data` or `self.current_driver`, so the state comes back
unchanged. -/
def renderPass (st : AppState) : AppState × ViewModel :=
  (st, update_plot st.driver_data st.current_driver)

/-- Modelled from the spec (§4.2): the new-stint rule stated in the spec's
words — a sample starts a new stint iff its compound differs from the
current stint's compound or its `tyre_age` is strictly below the previous
sample's; the running stint compound is updated exactly when a new stint
starts. -/
def specNewStintFlagsAux (stintCompound previous_life : Int) :
    List Entry → List Bool
  | [] => []
  | e :: es =>
    let isNew := decide (e.tyre ≠ stintCompound) || decide (e.tyre_life < previous_life)
    isNew :: specNewStintFlagsAux (if isNew then e.tyre else stintCompound)
      e.tyre_life es

/-- Modelled from the spec (§4.2): the first sample always starts a stint;
later samples follow `specNewStintFlagsAux`. -/
def specNewStintFlags : List Entry → List Bool
  | [] => []
  | e :: es => true :: specNewStintFlagsAux e.tyre e.tyre_life es

/-- The code-side new-stint flags: each stint of the segmentation
contributes `true` for its first sample and `false` for the rest. -/
def stintFlags (stints : List Stint) : List Bool :=
  (stints.map (fun s => true :: List.replicate (s.lives.length - 1) false)).flatten

/-- New-stint flags of the segmentation of a history. -/
def newStintFlags (entries : List Entry) : List Bool :=
  stintFlags (segment entries)

/-- Modelled from the spec (§4.3): the health formula in the spec's words,
`100 - (max(0, (start_age - 1) + max(0, L - start_lap)) /
(expected_life - 1)) * 100` when `expected_life > 1`, else `100`. -/
def specHealth (expected_life start_age start_lap L : Int) : ℚ :=
  if 1 < expected_life then
    100 - ((max 0 ((start_age - 1) + max 0 (L - start_lap)) : Int) : ℚ)
      / (((expected_life - 1 : Int)) : ℚ) * 100
  else
    100

lemma stintFlags_cons (s : Stint) (L : List Stint) :
    stintFlags (s :: L)
      = true :: (List.replicate (s.lives.length - 1) false ++ stintFlags L) := by
  simp [stintFlags]

lemma segmentAux_flatten_zip (rest : List Entry) :
    ∀ (cur : Stint) (prev : Int), cur.lives.length = cur.laps.length →
    ((segmentAux cur prev rest).map (fun s => s.lives.zip s.laps)).flatten
      = cur.lives.zip cur.laps ++ rest.map (fun e => (e.tyre_life, e.lap)) := by
  induction rest with
  | nil =>
    intro cur prev _
    simp [segmentAux]
  | cons e es ih =>
    intro cur prev h
    simp only [segmentAux]
    by_cases hc : cur.compound ≠ e.tyre ∨ e.tyre_life < prev
    · rw [if_pos hc]
      simp only [List.map_cons, List.flatten_cons]
      rw [ih (mkStint e) e.tyre_life rfl]
      simp [mkStint, List.append_assoc]
    · rw [if_neg hc]
      rw [ih (addSample cur e) e.tyre_life (by simp [addSample, h])]
      simp [addSample, List.zip_append h, List.append_assoc]

lemma segmentAux_mem (rest : List Entry) :
    ∀ (cur : Stint) (prev : Int),
    cur.lives.length = cur.laps.length → cur.lives ≠ [] →
    ∀ s ∈ segmentAux cur prev rest,
      s.lives.length = s.laps.length ∧ s.lives ≠ [] := by
  induction rest with
  | nil =>
    intro cur prev h hne s hs
    simp only [segmentAux, List.mem_singleton] at hs
    exact hs ▸ ⟨h, hne⟩
  | cons e es ih =>
    intro cur prev h hne s hs
    simp only [segmentAux] at hs
    by_cases hc : cur.compound ≠ e.tyre ∨ e.tyre_life < prev
    · rw [if_pos hc] at hs
      rcases List.mem_cons.mp hs with h1 | h2
      · exact h1 ▸ ⟨h, hne⟩
      · exact ih (mkStint e) e.tyre_life rfl (by simp [mkStint]) s h2
    · rw [if_neg hc] at hs
      exact ih (addSample cur e) e.tyre_life (by simp [addSample, h])
        (by simp [addSample]) s hs

lemma segmentAux_flags (rest : List Entry) :
    ∀ (cur : Stint) (prev : Int), cur.lives ≠ [] →
    stintFlags (segmentAux cur prev rest)
      = true :: (List.replicate (cur.lives.length - 1) false
          ++ specNewStintFlagsAux cur.compound prev rest) := by
  induction rest with
  | nil =>
    intro cur prev _
    simp [segmentAux, stintFlags, specNewStintFlagsAux]
  | cons e es ih =>
    intro cur prev hne
    simp only [segmentAux, specNewStintFlagsAux]
    by_cases hc : cur.compound ≠ e.tyre ∨ e.tyre_life < prev
    · rw [if_pos hc]
      have hd : (decide (e.tyre ≠ cur.compound) || decide (e.tyre_life < prev))
          = true := by
        rcases hc with h1 | h2
        · simp [Ne.symm h1]
        · simp [h2]
      rw [stintFlags_cons, ih (mkStint e) e.tyre_life (by simp [mkStint])]
      simp only [hd]
      simp [mkStint]
    · rw [if_neg hc]
      push_neg at hc
      have hd : (decide (e.tyre ≠ cur.compound) || decide (e.tyre_life < prev))
          = false := by
        simp [hc.1.symm, not_lt.mpr hc.2]
      rw [ih (addSample cur e) e.tyre_life (by simp [addSample])]
      simp only [hd]
      obtain ⟨m, hm⟩ : ∃ m, cur.lives.length = m + 1 :=
        ⟨cur.lives.length - 1,
         (Nat.succ_pred_eq_of_pos (List.length_pos.mpr hne)).symm⟩
      simp [addSample, hm, List.replicate_succ', List.append_assoc]

lemma health_pct_eq_specHealth (el sl sp L : Int) :
    health_pct el sl sp L = specHealth el sl sp L := by
  by_cases h : 1 < el
  · simp only [health_pct, specHealth, if_pos h]
    push_cast
    ring
  · simp only [health_pct, specHealth, if_neg h]

lemma health_pct_le_100 (el sl sp L : Int) : health_pct el sl sp L ≤ 100 := by
  by_cases h : 1 < el
  · simp only [health_pct, if_pos h]
    have h1 : (0 : ℚ) ≤ ((max 0 ((sl - 1) + max 0 (L - sp)) : Int) : ℚ) := by
      exact_mod_cast le_max_left 0 ((sl - 1) + max 0 (L - sp))
    have h2 : (0 : ℚ) < (el : ℚ) - 1 := by
      have h3 : (1 : ℚ) < (el : ℚ) := by exact_mod_cast h
      linarith
    have h4 := mul_nonneg (div_nonneg h1 (le_of_lt h2)) (by norm_num : (0:ℚ) ≤ 100)
    linarith
  · simp only [health_pct, if_neg h]
    exact le_refl 100

lemma record_length_le (hist : List Entry) (e : Entry) :
    (record hist e).length ≤ retention_cap := by
  simp only [record]
  split
  · rename_i hlt
    simp only [List.length_drop]
    omega
  · rename_i hge
    omega

lemma foldl_record_eq_drop (l : List Entry) :
    List.foldl record [] l = l.drop (l.length - retention_cap) := by
  simp only [retention_cap]
  induction l using List.reverseRecOn with
  | nil => simp
  | append_singleton xs x ih =>
    rw [List.foldl_concat, ih]
    by_cases hlt : xs.length < 1000
    · have h0 : xs.length - 1000 = 0 := by omega
      have h1 : (xs ++ [x]).length - 1000 = 0 := by
        simp only [List.length_append, List.length_singleton]
        omega
      rw [h0, List.drop_zero, h1, List.drop_zero]
      simp only [record, retention_cap]
      rw [if_neg (by simp only [List.length_append, List.length_singleton]; omega)]
    · push_neg at hlt
      have hA : (xs.drop (xs.length - 1000)).length = 1000 := by
        simp only [List.length_drop]
        omega
      simp only [record, retention_cap]
      rw [if_pos (by
        simp only [List.length_append, List.length_singleton, hA]
        omega)]
      have h2 : (xs.drop (xs.length - 1000) ++ [x]).length - 1000 = 1 := by
        simp only [List.length_append, List.length_singleton, hA]
      rw [h2, List.drop_append_of_le_length (by rw [hA]; omega), List.drop_drop,
        List.drop_append_of_le_length (by
          simp only [List.length_append, List.length_singleton]
          omega)]
      have h3 : xs.length - 1000 + 1 = (xs ++ [x]).length - 1000 := by
        simp only [List.length_append, List.length_singleton]
        omega
      rw [h3]

lemma segment_flatten_zip (l : List Entry) :
    ((segment l).map (fun s => s.lives.zip s.laps)).flatten
      = l.map (fun e => (e.tyre_life, e.lap)) := by
  cases l with
  | nil => simp [segment]
  | cons e es =>
    simp only [segment]
    rw [segmentAux_flatten_zip es (mkStint e) e.tyre_life rfl]
    simp [mkStint]

lemma segment_stint_wf (l : List Entry) :
    ∀ s ∈ segment l, s.lives.length = s.laps.length ∧ s.lives ≠ [] := by
  cases l with
  | nil => simp [segment]
  | cons e es =>
    simp only [segment]
    exact segmentAux_mem es (mkStint e) e.tyre_life rfl (by simp [mkStint])

lemma zip_map_snd : ∀ (l1 l2 : List Int), l1.length = l2.length →
    (l1.zip l2).map Prod.snd = l2
  | [], [], _ => rfl
  | a :: as, b :: bs, h => by
    simp only [List.zip_cons_cons, List.map_cons]
    rw [zip_map_snd as bs (by simpa using h)]
  | [], _ :: _, h => by simp at h
  | _ :: _, [], h => by simp at h

/-- C1: for every history, `segment` partitions it exactly — concatenating
the stints' `(tyre_age, race_lap)` sample sequences in output order
reproduces the history, so every sample lands in exactly one stint, with no
gaps or overlaps; moreover every produced stint is nonempty with aligned
`lives`/`laps` lists. -/
theorem segment_partition_exact (entries : List Entry) :
    ((segment entries).map (fun s => s.lives.zip s.laps)).flatten
        = entries.map (fun e => (e.tyre_life, e.lap))
      ∧ ∀ s ∈ segment entries, s.lives.length = s.laps.length ∧ s.lives ≠ [] :=
  ⟨segment_flatten_zip entries, segment_stint_wf entries⟩

theorem segment_partition_exact_witness :
    (mkStint ⟨0, 0, 1, 5⟩).lives.length = (mkStint ⟨0, 0, 1, 5⟩).laps.length
      ∧ (mkStint ⟨0, 0, 1, 5⟩).lives ≠ [] :=
  (segment_partition_exact [⟨0, 0, 1, 5⟩]).2 (mkStint ⟨0, 0, 1, 5⟩)
    (by simp [segment, segmentAux])

/-- C2: processed in arrival order, a sample starts a new stint if and only
if it is the first sample, its compound differs from the current stint's
compound, or its `tyre_age` is strictly below the immediately preceding
sample's; otherwise it extends the current stint (so a compound change
starts a new stint even when the age also decreased) — the code's new-stint
flags coincide with the spec's rule on every history. -/
theorem newStintFlags_eq_specNewStintFlags (entries : List Entry) :
    newStintFlags entries = specNewStintFlags entries := by
  cases entries with
  | nil => rfl
  | cons e es =>
    simp only [newStintFlags, segment, specNewStintFlags]
    rw [segmentAux_flags es (mkStint e) e.tyre_life (by simp [mkStint])]
    simp [mkStint]

/-- C3: for every stint with anchors `start_age` (= `start_life`) and
`start_lap`, each sample `(a, L)` yields health
`100 - (max(0, (start_age - 1) + max(0, L - start_lap)) /
(expected_life - 1)) * 100` when the expected life exceeds `1`, and the
formula yields exactly `100` for every sample whenever the expected life is
`1` or less (the health depends only on `L`, never on the sample's age). -/
theorem curve_health_formula :
    (∀ s : Stint, s.lives.length = s.laps.length →
      (stintXY s).2 = s.laps.map (fun L =>
        specHealth (expected_tyre_life s.compound) s.start_life s.start_lap L))
    ∧ (∀ el sl sp L : Int, el ≤ 1 → health_pct el sl sp L = 100) := by
  constructor
  · intro s h
    have h1 : (s.lives.zip s.laps).map
          (fun p => health_pct (expected_tyre_life s.compound)
            s.start_life s.start_lap p.2)
        = ((s.lives.zip s.laps).map Prod.snd).map
          (fun L => health_pct (expected_tyre_life s.compound)
            s.start_life s.start_lap L) := by
      rw [List.map_map]
      rfl
    show (s.lives.zip s.laps).map
        (fun p => health_pct (expected_tyre_life s.compound)
          s.start_life s.start_lap p.2) = _
    rw [h1, zip_map_snd s.lives s.laps h]
    simp only [health_pct_eq_specHealth]
  · intro el sl sp L hel
    simp only [health_pct, if_neg (not_lt.mpr hel)]

theorem curve_health_formula_witness :
    (stintXY ⟨0, 1, 1, [1], [1]⟩).2
        = [(1 : Int)].map (fun L => specHealth (expected_tyre_life 0) 1 1 L)
      ∧ health_pct 1 0 0 5 = 100 :=
  ⟨curve_health_formula.1 ⟨0, 1, 1, [1], [1]⟩ rfl,
   curve_health_formula.2 1 0 0 5 (by norm_num)⟩

/-- The concrete stream of 1005 samples used to exercise the retention cap. -/
def stream1005 : List Entry := (List.range 1005).map (fun i => ⟨i, 0, 0, 0⟩)

/-- C5: after each `record` the driver's history length is at most the
retention cap of `1000`; folding `record` over any stream keeps exactly the
most recent cap's worth in original relative order (the history equals the
stream with its oldest entries dropped), and in particular recording the
1005-sample stream leaves exactly the last `1000` samples in order. -/
theorem record_retention :
    (∀ (hist : List Entry) (e : Entry), (record hist e).length ≤ retention_cap)
    ∧ (∀ l : List Entry,
        List.foldl record [] l = l.drop (l.length - retention_cap))
    ∧ List.foldl record [] stream1005 = stream1005.drop 5 := by
  refine ⟨record_length_le, foldl_record_eq_drop, ?_⟩
  rw [foldl_record_eq_drop]
  have hlen : stream1005.length - retention_cap = 5 := by
    simp [stream1005, retention_cap]
  rw [hlen]

/-- C6: with an empty store, `update_plot` returns the explicit waiting
placeholder for every selection — never an empty-but-non-placeholder curve
set. -/
theorem update_plot_empty_placeholder (current_driver : String) :
    update_plot [] current_driver = ViewModel.placeholder := rfl

/-- C7: a compound code with no entry in the expected-life table falls back
to the default expected life of `25` laps, and curve generation is total:
any stint, whatever its compound code, yields exactly one `(x, y)` point
per sample. -/
theorem unknown_compound_defaults :
    (∀ c : Int, expected_tyre_life_table.lookup c = none →
      expected_tyre_life c = 25)
    ∧ (∀ s : Stint, s.lives.length = s.laps.length →
        (stintXY s).1.length = s.laps.length
          ∧ (stintXY s).2.length = s.laps.length) := by
  constructor
  · intro c hc
    simp [expected_tyre_life, hc]
  · intro s h
    constructor <;> simp [stintXY, List.length_zip, h]

theorem unknown_compound_defaults_witness :
    expected_tyre_life 9 = 25
      ∧ ((stintXY ⟨9, 1, 0, [1, 2], [10, 11]⟩).1.length
            = ([(10 : Int), 11]).length
         ∧ (stintXY ⟨9, 1, 0, [1, 2], [10, 11]⟩).2.length
            = ([(10 : Int), 11]).length) :=
  ⟨unknown_compound_defaults.1 9 (by decide),
   unknown_compound_defaults.2 ⟨9, 1, 0, [1, 2], [10, 11]⟩ rfl⟩

/-- C8: a render pass is a pure projection over the store state: it leaves
the state untouched, and two consecutive passes with no intervening record
produce identical output. -/
theorem renderPass_pure (st : AppState) :
    (renderPass st).1 = st
      ∧ (renderPass (renderPass st).1).2 = (renderPass st).2 :=
  ⟨rfl, rfl⟩

/-- C9 counterexample: no stint input can produce a health value above
`100` — the claim's second existential is false, since
`effective_life_progress` is clamped to be nonnegative and the expected
life's divisor is positive, so the generated value is always `≤ 100`. -/
theorem no_health_above_100 :
    ¬ ∃ (s : Stint) (q : ℚ), q ∈ (stintXY s).2 ∧ 100 < q := by
  rintro ⟨s, q, hq, hgt⟩
  simp only [stintXY, List.mem_map] at hq
  obtain ⟨p, _, hp⟩ := hq
  have hle := health_pct_le_100 (expected_tyre_life s.compound)
    s.start_life s.start_lap p.2
  rw [hp] at hle
  linarith

/-- C9 (amended): health values are not clamped below — there is a stint
input whose generated health value is below `0` — but every generated
health value is at most `100`; no input produces a value above `100`. -/
theorem health_unclamped_below_at_most_100 :
    (∃ (s : Stint) (q : ℚ), q ∈ (stintXY s).2 ∧ q < 0)
    ∧ ∀ (s : Stint) (q : ℚ), q ∈ (stintXY s).2 → q ≤ 100 := by
  constructor
  · refine ⟨⟨0, 1, 0, [1], [100]⟩, -8100/19, ?_, by norm_num⟩
    have h : (stintXY ⟨0, 1, 0, [1], [100]⟩).2 = [-8100/19] := by
      norm_num [stintXY, health_pct, expected_tyre_life,
        expected_tyre_life_table, List.lookup]
    rw [h]
    exact List.mem_singleton.mpr rfl
  · intro s q hq
    simp only [stintXY, List.mem_map] at hq
    obtain ⟨p, _, hp⟩ := hq
    exact hp ▸ health_pct_le_100 _ _ _ _

theorem health_unclamped_below_at_most_100_witness : (100 : ℚ) ≤ 100 :=
  health_unclamped_below_at_most_100.2 ⟨0, 1, 1, [1], [1]⟩ 100 (by
    have h : (stintXY ⟨0, 1, 1, [1], [1]⟩).2 = [100] := by
      norm_num [stintXY, health_pct, expected_tyre_life,
        expected_tyre_life_table, List.lookup]
    rw [h]
    exact List.mem_singleton.mpr rfl)

/-- C10: the degradation series has exactly one `(lap, health)` point per
input entry — both output lists have the input's length — and the x-values
are exactly the entries' lap values in order of ascending frame index
(`sortByFrame` being a sorted permutation of the input by `frame`). -/
theorem series_one_point_per_entry (entries : List Entry) :
    (compute_degradation_series entries).1.length = entries.length
    ∧ (compute_degradation_series entries).2.length = entries.length
    ∧ (compute_degradation_series entries).1 = (sortByFrame entries).map Entry.lap
    ∧ (sortByFrame entries).Perm entries
    ∧ List.Sorted (fun a b => a.frame ≤ b.frame) (sortByFrame entries) := by
  have hperm : (sortByFrame entries).Perm entries := List.perm_insertionSort _ _
  have hsorted : List.Sorted (fun a b => a.frame ≤ b.frame) (sortByFrame entries) :=
    List.sorted_insertionSort _ _
  have hcompute : compute_degradation_series entries =
      (((segment (sortByFrame entries)).map (fun s => (stintXY s).1)).flatten,
       ((segment (sortByFrame entries)).map (fun s => (stintXY s).2)).flatten) := by
    cases entries with
    | nil => simp [compute_degradation_series, sortByFrame, segment]
    | cons e es => simp [compute_degradation_series]
  have hx : ((segment (sortByFrame entries)).map (fun s => (stintXY s).1)).flatten
      = (sortByFrame entries).map Entry.lap := by
    have h1 : ((segment (sortByFrame entries)).map (fun s => (stintXY s).1)).flatten
        = (((segment (sortByFrame entries)).map
            (fun s => s.lives.zip s.laps)).flatten).map (fun p => p.2) := by
      rw [List.map_flatten, List.map_map]
      rfl
    rw [h1, segment_flatten_zip, List.map_map]
    rfl
  have hy : ((segment (sortByFrame entries)).map
        (fun s => (stintXY s).2)).flatten.length
      = (sortByFrame entries).length := by
    rw [List.length_flatten, List.map_map]
    have h2 : (List.length ∘ fun s : Stint => (stintXY s).2)
        = fun s : Stint => (s.lives.zip s.laps).length := by
      funext s
      simp [stintXY]
    rw [h2]
    have h3 : ((segment (sortByFrame entries)).map
          (fun s : Stint => (s.lives.zip s.laps).length)).sum
        = (((segment (sortByFrame entries)).map
            (fun s => s.lives.zip s.laps)).flatten).length := by
      rw [List.length_flatten, List.map_map]
      rfl
    rw [h3, segment_flatten_zip]
    simp
  refine ⟨?_, ?_, ?_, hperm, hsorted⟩
  · rw [hcompute]
    show ((segment (sortByFrame entries)).map
        (fun s => (stintXY s).1)).flatten.length = entries.length
    rw [hx, List.length_map, hperm.length_eq]
  · rw [hcompute]
    show ((segment (sortByFrame entries)).map
        (fun s => (stintXY s).2)).flatten.length = entries.length
    rw [hy, hperm.length_eq]
  · rw [hcompute]
    show ((segment (sortByFrame entries)).map (fun s => (stintXY s).1)).flatten
        = (sortByFrame entries).map Entry.lap
    exact hx

/-- C4 counterexample: rendering itself does not fall back — with a store
holding only driver `"A"` and the selection `"B"` (a driver not present),
`update_plot` produces the single-driver view (with no curve), not the
all-drivers view. -/
theorem update_plot_absent_driver_single_view :
    ("B" ∉ (([("A", [(⟨0, 0, 1, 1⟩ : Entry)])]).map Prod.fst))
      ∧ (update_plot [("A", [⟨0, 0, 1, 1⟩])] "B").isAllDriversView = false := by
  constructor
  · decide
  · rfl

/-- C4 (amended): the fallback happens at telemetry ingestion, not at
render time — when a frame's driver list changes the selector contents and
the current selection is not among `"All Drivers"` plus the frame's driver
codes, the selection is reset to `"All Drivers"`, and rendering any
nonempty store under the reset selection yields the all-drivers view. -/
theorem fallback_then_all_drivers_view (items : List String) (cur : String)
    (codes : List String) (dd : List (String × List Entry))
    (hitems : items ≠ "All Drivers" :: codes)
    (hcur : cur ∉ "All Drivers" :: codes)
    (hdd : dd ≠ []) :
    (fallbackSelection items cur codes).2 = "All Drivers"
      ∧ (update_plot dd (fallbackSelection items cur codes).2).isAllDriversView
          = true := by
  have hsel : (fallbackSelection items cur codes).2 = "All Drivers" := by
    simp only [fallbackSelection]
    rw [if_neg hitems, if_neg hcur]
  refine ⟨hsel, ?_⟩
  rw [hsel]
  cases dd with
  | nil => exact absurd rfl hdd
  | cons p ps =>
    have hnot : ¬ (("All Drivers" : String) ≠ ""
        ∧ ("All Drivers" : String) ≠ "All Drivers") := by
      intro h
      exact h.2 rfl
    simp only [update_plot]
    rw [if_neg (by simp : ¬((p :: ps).isEmpty = true)), if_neg hnot]
    rfl

theorem fallback_then_all_drivers_view_witness :
    (fallbackSelection ["All Drivers", "A"] "B" ["C"]).2 = "All Drivers"
      ∧ (update_plot [("C", [(⟨0, 0, 1, 1⟩ : Entry)])]
          (fallbackSelection ["All Drivers", "A"] "B" ["C"]).2).isAllDriversView
          = true :=
  fallback_then_all_drivers_view ["All Drivers", "A"] "B" ["C"]
    [("C", [⟨0, 0, 1, 1⟩])] (by decide) (by decide) (by decide)

end TyreWindow
